import Mathlib

/-!
Verification of the transaction-extraction pipeline of the shopping-expense-tracker
repository: a shallow embedding of `ai-server/main.py` (description validator,
amount/date cell classifiers, column-role inference, table-row reconstructor,
free-text line parser, AI-strategy dispatch) and of
`pdf-service/app.py` (`extract_transactions_from_text`).

Modelling conventions:
* Python strings are `String` (operations are written over `List Char`).
* Python floats produced by amount parsing are modelled as exact rationals `ℚ`.
  Every amount in the pipeline is parsed from a decimal literal with at most two
  fraction digits; for such values the comparisons the code performs
  (`> 0`, `< 1000000`, `< 100000000`, equality inside the dedup key) agree
  between IEEE doubles and exact rationals, so the `ℚ` model is faithful.
* Regexes without capture groups are interpreted by a Brzozowski-derivative
  matcher over an explicit AST (`RE`); regexes whose captures the code uses are
  hand-compiled into recursive matchers that follow Python's leftmost /
  priority (greedy, lazy, ordered-alternation) semantics.
* `$` anchors are modelled as end-of-string: every `$`-anchored pattern in the
  code is applied to a `str.strip()`-ed string, so Python's
  "`$` also matches before a trailing newline" subtlety cannot fire.
* Character classes `\s`, `\d`, `[a-zA-Z]` are modelled over ASCII, matching
  Python's behaviour on the ASCII inputs the properties are about.
-/

namespace BankParse

/-- The whitespace class of Python's `str.strip` / regex `\s` (ASCII part). -/
def pyIsSpace (c : Char) : Bool :=
  c == ' ' || c == '\t' || c == '\n' || c == '\r' || c == '\x0b' || c == '\x0c'

/-- Strip leading and trailing whitespace, Python `str.strip()`. -/
def stripL (l : List Char) : List Char :=
  ((l.dropWhile pyIsSpace).reverse.dropWhile pyIsSpace).reverse

def pyStrip (s : String) : String := ⟨stripL s.data⟩

/-- Python `str.lower()` (ASCII). -/
def lowerL (l : List Char) : List Char := l.map Char.toLower

/-- Python `text.split(sep)` for a single-character separator. -/
def splitOnChar (sep : Char) : List Char → List (List Char)
  | [] => [[]]
  | c :: cs =>
    match splitOnChar sep cs with
    | [] => if c == sep then [[], []] else [[c]]
    | h :: t => if c == sep then [] :: h :: t else (c :: h) :: t

/-- Python `' '.join(parts)`. -/
def joinSpace : List (List Char) → List Char
  | [] => []
  | [x] => x
  | x :: xs => x ++ ' ' :: joinSpace xs

/-- Does `pat` occur as a contiguous subsequence of `l`?  Python `pat in s`. -/
def containsSeq (pat : List Char) : List Char → Bool
  | [] => pat.isEmpty
  | c :: cs => pat.isPrefixOf (c :: cs) || containsSeq pat cs

/-- `kws.any (fun k => k in l)` over lowercase text, as the Python code writes it. -/
def anyKwIn (kws : List String) (l : List Char) : Bool :=
  kws.any (fun k => containsSeq k.data l)

/-- Python `str.replace(old, new)`: all non-overlapping occurrences, left to
right.  The fuel is the length of the subject; each step consumes at least one
character so this is exact (`old` is never empty at the call sites). -/
def replaceAllAux (old new : List Char) : ℕ → List Char → List Char
  | _, [] => []
  | 0, l => l
  | fuel + 1, c :: cs =>
    if !old.isEmpty && old.isPrefixOf (c :: cs) then
      new ++ replaceAllAux old new fuel ((c :: cs).drop old.length)
    else
      c :: replaceAllAux old new fuel cs

def replaceAll (old new l : List Char) : List Char := replaceAllAux old new l.length l

/-- `re.sub(cls+ , rep, s)` for a character class `p` and a one-character
replacement: every maximal nonempty run of `p`-characters becomes `rep`.
The fuel is the length of the subject, which every step strictly decreases,
so the fuel never runs out. -/
def collapseRunsAux (p : Char → Bool) (rep : Char) : ℕ → List Char → List Char
  | _, [] => []
  | 0, l => l
  | fuel + 1, c :: cs =>
    if p c then rep :: collapseRunsAux p rep fuel (cs.dropWhile p)
    else c :: collapseRunsAux p rep fuel cs

def collapseRuns (p : Char → Bool) (rep : Char) (l : List Char) : List Char :=
  collapseRunsAux p rep l.length l

/-- `re.findall(r'[a-zA-Z]+', s)`: the maximal runs of ASCII letters.
Fuel as in `collapseRunsAux`. -/
def letterRunsAux : ℕ → List Char → List (List Char)
  | _, [] => []
  | 0, _ => []
  | fuel + 1, c :: cs =>
    if c.isAlpha then
      (c :: cs.takeWhile Char.isAlpha) :: letterRunsAux fuel (cs.dropWhile Char.isAlpha)
    else letterRunsAux fuel cs

def letterRuns (l : List Char) : List (List Char) := letterRunsAux l.length l

/-- Parse a run of decimal digits as a natural number. -/
def digitsToNat (l : List Char) : ℕ :=
  l.foldl (fun n c => 10 * n + (c.toNat - '0'.toNat)) 0

/-! ## A Brzozowski-derivative regex interpreter

Used for the capture-free regexes of `is_valid_description` and `is_text_cell`.
Smart constructors keep derivative terms small so that concrete evaluation by
`decide` stays cheap. -/

inductive RE where
  | never : RE
  | eps : RE
  | cls : (Char → Bool) → RE
  | seq : RE → RE → RE
  | alt : RE → RE → RE
  | star : RE → RE

def RE.nullable : RE → Bool
  | .never => false
  | .eps => true
  | .cls _ => false
  | .seq a b => a.nullable && b.nullable
  | .alt a b => a.nullable || b.nullable
  | .star _ => true

def mkSeq : RE → RE → RE
  | .never, _ => .never
  | .eps, b => b
  | a, b =>
    match b with
    | .never => .never
    | .eps => a
    | _ => .seq a b

def mkAlt : RE → RE → RE
  | .never, b => b
  | a, b =>
    match b with
    | .never => a
    | _ => .alt a b

def RE.deriv : RE → Char → RE
  | .never, _ => .never
  | .eps, _ => .never
  | .cls p, c => if p c then .eps else .never
  | .seq a b, c =>
    if a.nullable then mkAlt (mkSeq (a.deriv c) b) (b.deriv c)
    else mkSeq (a.deriv c) b
  | .alt a b, c => mkAlt (a.deriv c) (b.deriv c)
  | .star a, c => mkSeq (a.deriv c) (.star a)

/-- Does `r` match the whole list (a `^...$`-anchored `re.match`)? -/
def reFull (r : RE) : List Char → Bool
  | [] => r.nullable
  | c :: cs => reFull (r.deriv c) cs

/-- Does `r` match some prefix (an unanchored-at-the-right `re.match`)? -/
def rePref (r : RE) : List Char → Bool
  | [] => r.nullable
  | c :: cs => r.nullable || rePref (r.deriv c) cs

/-- Does `r` match somewhere inside the list (`re.search`)? -/
def reSearch (r : RE) : List Char → Bool
  | [] => r.nullable
  | c :: cs => rePref r (c :: cs) || reSearch r cs

/-- Case-sensitive literal character. -/
def chC (c : Char) : RE := .cls (fun d => d == c)

/-- Case-insensitive literal character (`re.IGNORECASE`). -/
def chI (c : Char) : RE := .cls (fun d => d.toLower == c.toLower)

/-- Case-insensitive literal string. -/
def strI (s : String) : RE := s.data.foldr (fun c r => mkSeq (chI c) r) .eps

def reOpt (r : RE) : RE := mkAlt .eps r

def rePlus (r : RE) : RE := mkSeq r (.star r)

/-- `r{n}`. -/
def reRep (r : RE) : ℕ → RE
  | 0 => .eps
  | n + 1 => mkSeq r (reRep r n)

/-- `r{0,n}`. -/
def reUpTo (r : RE) : ℕ → RE
  | 0 => .eps
  | n + 1 => reOpt (mkSeq r (reUpTo r n))

/-- `r{lo,hi}`. -/
def reRange (r : RE) (lo hi : ℕ) : RE := mkSeq (reRep r lo) (reUpTo r (hi - lo))

def reDigit : RE := .cls Char.isDigit
def reWs : RE := .cls pyIsSpace
def reLetter : RE := .cls Char.isAlpha
def wsStar : RE := .star reWs
def reDot : RE := .cls (fun c => c != '\n')

end BankParse

namespace BankParse

/-! ## `is_valid_description` (ai-server/main.py, lines 110-171) -/

def altList (l : List RE) : RE := l.foldr mkAlt .never

def seqL (l : List RE) : RE := l.foldr mkSeq .eps

/-- `AM|PM|am|pm` under `re.IGNORECASE`. -/
def amPm : RE := mkAlt (strI "am") (strI "pm")

def reNonWs : RE := .cls (fun c => !pyIsSpace c)

/-- A month stem with an optional completion, e.g. `Jan(?:uary)?`. -/
def monthOptSfx (stem sfx : String) : RE := mkSeq (strI stem) (reOpt (strI sfx))

/-- The long-month alternation of `month_pattern`. -/
def monthsLong : RE := altList
  [ monthOptSfx "jan" "uary", monthOptSfx "feb" "ruary", monthOptSfx "mar" "ch",
    monthOptSfx "apr" "il", strI "may", monthOptSfx "jun" "e", monthOptSfx "jul" "y",
    monthOptSfx "aug" "ust",
    mkSeq (strI "sep") (reOpt (mkSeq (strI "t") (reOpt (strI "ember")))),
    monthOptSfx "oct" "ober", monthOptSfx "nov" "ember", monthOptSfx "dec" "ember" ]

/-- `^(months)(?:\s*\d{0,4})?$`, matched case-insensitively. -/
def monthPat : RE := mkSeq monthsLong (reOpt (mkSeq wsStar (reUpTo reDigit 4)))

/-- `Jan|Feb|...|Dec` (three-letter stems), case-insensitive. -/
def month3 : RE := altList
  (["jan", "feb", "mar", "apr", "may", "jun",
    "jul", "aug", "sep", "oct", "nov", "dec"].map strI)

def dashSlash : RE := .cls (fun c => c == '-' || c == '/')

/-- The 22 `fragment_patterns`, in source order, each `^`/`$`-anchored and
matched with `re.IGNORECASE` (so `[A-Z]` and `[a-z]` mean any ASCII letter). -/
def fragmentPats : List RE :=
  [ seqL [chC ':', wsStar, reOpt amPm, wsStar],
    seqL [chC ':', wsStar, reRange reNonWs 1 4, wsStar],
    seqL [wsStar, chC ':', wsStar, reUpTo reDot 5],
    seqL [strI "phone:", wsStar, reOpt (chC '('), wsStar, reOpt (chC ')'), wsStar],
    seqL [reRange reDigit 1 2, chC ':', reRep reDigit 2, wsStar, reOpt amPm],
    rePlus (.cls (fun c =>
      pyIsSpace c || c == '-' || c == ':' || c == '.' || c == ',' ||
      c == ';' || c == '/' || c == '\\')),
    seqL [amPm, wsStar],
    seqL [chC '(', wsStar, chC ')', wsStar],
    .star (.cls (fun c => !c.isAlpha)),
    rePlus reDigit,
    seqL [reRange reLetter 1 3, wsStar, .star reDigit],
    seqL [reRange reDigit 1 2, dashSlash, reRange reDigit 1 2,
          reOpt (mkSeq dashSlash (reRange reDigit 2 4))],
    seqL [reRange reDigit 1 2, wsStar, month3, .star reLetter],
    seqL [month3, .star reLetter, wsStar, reUpTo reDigit 4],
    reRange reLetter 1 4,
    seqL [rePlus reDigit, wsStar, amPm],
    seqL [altList [strI "pkr", mkSeq (strI "rs") (reOpt (chC '.')), strI "usd",
                   chC '$', strI "eur", chC '€'], wsStar],
    seqL [strI "other", wsStar],
    seqL [chI 'n', reOpt (chC '/'), chI 'a', wsStar],
    seqL [wsStar, rePlus (chC '-'), wsStar],
    seqL [altList [strI "debit", strI "credit", strI "dr", strI "cr"], wsStar],
    seqL [reRep reDigit 4, .star reDigit] ]

/-- `is_valid_description` (main.py 110-171), check for check:
empty, `strip`, length `< 6`, `re.search(r'[a-zA-Z]{4,}')`, the month pattern,
the fragment-pattern sweep, then the word-content heuristic over
`re.findall(r'[a-zA-Z]+', desc)`. -/
def is_valid_description (desc : String) : Bool :=
  if desc.data.isEmpty then false
  else
    let d := stripL desc.data
    if d.length < 6 then false
    else if !reSearch (mkSeq (reRep reLetter 4) (.star reLetter)) d then false
    else if reFull monthPat d then false
    else if fragmentPats.any (fun r => reFull r d) then false
    else
      let words := letterRuns d
      if words.any (fun w => 5 ≤ w.length) then true
      else if ((words.filter (fun w => 3 ≤ w.length)).length) < 2 then false
      else true

end BankParse

namespace BankParse

/-! ## Cell classifiers of `parse_table_transactions` (main.py 176-235) -/

/-- The character class `[Rs.PKR₨\s]` under `re.IGNORECASE`: note that it is a
class of characters (R, s, ., P, K, ₨, whitespace, case-insensitively), not the
words `Rs.` / `PKR`. -/
def isCurrencyLeadChar (c : Char) : Bool :=
  c.toLower == 'r' || c.toLower == 's' || c == '.' || c.toLower == 'p' ||
  c.toLower == 'k' || c == '₨' || pyIsSpace c

/-- Full match of `^\d+(?:\.\d{1,2})?$` with its exact rational value. -/
def parseAmountToken (l : List Char) : Option ℚ :=
  let ds := l.takeWhile Char.isDigit
  if ds.isEmpty then none
  else
    match l.drop ds.length with
    | [] => some (digitsToNat ds : ℚ)
    | '.' :: fs =>
      if fs.all Char.isDigit && 1 ≤ fs.length && fs.length ≤ 2 then
        some (mkRat (digitsToNat ds * 10 ^ fs.length + digitsToNat fs) (10 ^ fs.length))
      else none
    | _ => none

/-- `is_amount` (main.py 206-219): strip, drop commas and spaces, strip a
leading run of `[Rs.PKR₨\s]` characters, then accept `^\d+(?:\.\d{1,2})?$`
with a strictly positive value. -/
def is_amount (cell : String) : Option ℚ :=
  if cell.data.isEmpty then none
  else
    let t := stripL cell.data
    let t := t.filter (fun c => c != ',')
    let t := t.filter (fun c => c != ' ')
    let t := t.dropWhile isCurrencyLeadChar
    match parseAmountToken t with
    | some v => if 0 < v then some v else none
    | none => none

def numCellPat : RE :=
  mkSeq (rePlus (.cls (fun c => c.isDigit || c == ',')))
    (reOpt (mkSeq (chC '.') (reRange reDigit 1 2)))

def timeCellPat : RE :=
  seqL [reRange reDigit 1 2, chC ':', reRep reDigit 2, wsStar, reOpt amPm]

/-- `is_text_cell` (main.py 221-235). -/
def is_text_cell (cell : String) : Bool :=
  if cell.data.length < 3 then false
  else
    let c := stripL cell.data
    if !reSearch (mkSeq (reRep reLetter 3) (.star reLetter)) c then false
    else if reFull numCellPat (c.filter (fun ch => ch != ',')) then false
    else if reFull timeCellPat c then false
    else true

/-! ## The `DATE_PATTERNS` of `parse_table_transactions` (main.py 187-204)

Each matcher returns the text of capture group 1 on success.  The first three
patterns are `$`-anchored, so the group is the whole (stripped) cell; the
fourth has no `$`, so the group is the matched prefix.  Greedy bounded
repetitions like `\d{1,2}` need no backtracking here because each quantified
class is disjoint from what must follow it (digits vs separators vs letters),
except for the optional ordinal suffix, where the one backtracking step is
taken explicitly. -/

def month3Names : List String :=
  ["jan", "feb", "mar", "apr", "may", "jun", "jul", "aug", "sep", "oct", "nov", "dec"]

def startsWithMonth3 (letters : List Char) : Bool :=
  month3Names.any (fun m => m.data.isPrefixOf (lowerL letters))

/-- `^(\d{1,2} sep \d{1,2} sep \d{2,4})$` where sep is a dash or slash. -/
def dateDDMMYY (l : List Char) : Option (List Char) :=
  let d1 := l.takeWhile Char.isDigit
  if d1.length < 1 || 2 < d1.length then none
  else
    match l.drop d1.length with
    | s1 :: r2 =>
      if !(s1 == '-' || s1 == '/') then none
      else
        let d2 := r2.takeWhile Char.isDigit
        if d2.length < 1 || 2 < d2.length then none
        else
          match r2.drop d2.length with
          | s2 :: r4 =>
            if !(s2 == '-' || s2 == '/') then none
            else
              let d3 := r4.takeWhile Char.isDigit
              if 2 ≤ d3.length && d3.length ≤ 4 && (r4.drop d3.length).isEmpty then
                some l
              else none
          | [] => none
    | [] => none

/-- `^(\d{1,2}\s+(?:Jan|...|Dec)[a-z]*(?:\s+\d{2,4})?)$`, `re.IGNORECASE`. -/
def dateDayMonthYear (l : List Char) : Option (List Char) :=
  let d1 := l.takeWhile Char.isDigit
  if d1.length < 1 || 2 < d1.length then none
  else
    let r1 := l.drop d1.length
    let ws := r1.takeWhile pyIsSpace
    if ws.isEmpty then none
    else
      let r2 := r1.drop ws.length
      let lets := r2.takeWhile Char.isAlpha
      if !startsWithMonth3 lets then none
      else
        match r2.drop lets.length with
        | [] => some l
        | r3 =>
          let ws2 := r3.takeWhile pyIsSpace
          if ws2.isEmpty then none
          else
            let r4 := r3.drop ws2.length
            let d2 := r4.takeWhile Char.isDigit
            if 2 ≤ d2.length && d2.length ≤ 4 && (r4.drop d2.length).isEmpty then
              some l
            else none

/-- `^(\d{4} sep \d{2} sep \d{2})$` where sep is a dash or slash. -/
def dateISO (l : List Char) : Option (List Char) :=
  let d1 := l.takeWhile Char.isDigit
  if d1.length != 4 then none
  else
    match l.drop 4 with
    | s1 :: r2 =>
      if !(s1 == '-' || s1 == '/') then none
      else
        let d2 := r2.takeWhile Char.isDigit
        if d2.length != 2 then none
        else
          match r2.drop 2 with
          | s2 :: r4 =>
            if !(s2 == '-' || s2 == '/') then none
            else
              let d3 := r4.takeWhile Char.isDigit
              if d3.length == 2 && (r4.drop 2).isEmpty then some l else none
          | [] => none
    | [] => none

/-- The ordinal suffix `(?:st|nd|rd|th)?`, case-insensitively. -/
def ordSfx (l : List Char) : Option (List Char × List Char) :=
  match l with
  | a :: b :: rest =>
    let ab := lowerL [a, b]
    if ab == ['s', 't'] || ab == ['n', 'd'] || ab == ['r', 'd'] || ab == ['t', 'h'] then
      some ([a, b], rest)
    else none
  | _ => none

/-- Tail of the ordinal-date pattern: `\s+(?:Jan|...|Dec)[a-z]*` as a prefix. -/
def ordDateTail (d1 pre r : List Char) : Option (List Char) :=
  let ws := r.takeWhile pyIsSpace
  if ws.isEmpty then none
  else
    let r2 := r.drop ws.length
    let lets := r2.takeWhile Char.isAlpha
    if startsWithMonth3 lets then some (d1 ++ pre ++ ws ++ lets) else none

/-- `^(\d{1,2}(?:st|nd|rd|th)?\s+(?:Jan|...|Dec)[a-z]*)` — a prefix match whose
group is the matched prefix. -/
def dateOrdinal (l : List Char) : Option (List Char) :=
  let d1 := l.takeWhile Char.isDigit
  if d1.length < 1 || 2 < d1.length then none
  else
    let r1 := l.drop d1.length
    match ordSfx r1 with
    | some (sfx, r2) =>
      match ordDateTail d1 sfx r2 with
      | some g => some g
      | none => ordDateTail d1 [] r1
    | none => ordDateTail d1 [] r1

/-- `find_date_in_row`'s per-cell search: skip cells shorter than 4 characters,
strip, then try the four patterns in order. -/
def findDateCell (cell : String) : Option (List Char) :=
  if cell.data.length < 4 then none
  else
    let c := stripL cell.data
    match dateDDMMYY c with
    | some g => some g
    | none =>
      match dateDayMonthYear c with
      | some g => some g
      | none =>
        match dateISO c with
        | some g => some g
        | none => dateOrdinal c

/-- `find_date_in_row` (main.py 194-204). -/
def find_date_in_row : List String → Option String
  | [] => none
  | cell :: rest =>
    match findDateCell cell with
    | some d => some ⟨d⟩
    | none => find_date_in_row rest

end BankParse

namespace BankParse

/-! ## Data model and table-row reconstruction (main.py 237-394) -/

inductive TxType where
  | expense : TxType
  | income : TxType
deriving DecidableEq

/-- A finalized transaction record, as appended to `final_transactions`. -/
structure FinalTx where
  description : String
  amount : ℚ
  date : Option String
  txType : TxType
  category : String
deriving DecidableEq

/-- The mutable `current_tx` accumulator of the second pass. -/
structure ProvTx where
  date : String
  parts : List (List Char)
  amount : Option ℚ
  txType : TxType
deriving DecidableEq

/-- Column-role map from the header scan; `-1` means "not found". -/
structure ColMap where
  debit : Int
  credit : Int
  balance : Int
deriving DecidableEq

/-- Header-signature test of the first pass (main.py 240-244): a nonempty row
whose lowercased space-join contains `date`, `description` or `debit`. -/
def isHeaderRow (row : List String) : Bool :=
  !row.isEmpty &&
    (let s := joinSpace (row.map (fun c => lowerL c.data))
     containsSeq "date".data s || containsSeq "description".data s ||
       containsSeq "debit".data s)

/-- One step of the header-row column assignment (main.py 245-252):
`debit`/`withdrawal`, elif `credit`/`deposit`, elif `balance`; later cells
overwrite earlier ones. -/
def colStep (m : ColMap) (ic : ℕ × String) : ColMap :=
  let cl := lowerL ic.2.data
  if containsSeq "debit".data cl || containsSeq "withdrawal".data cl then
    { m with debit := (ic.1 : Int) }
  else if containsSeq "credit".data cl || containsSeq "deposit".data cl then
    { m with credit := (ic.1 : Int) }
  else if containsSeq "balance".data cl then
    { m with balance := (ic.1 : Int) }
  else m

/-- First pass (main.py 237-253): find the first header-signature row and read
the column roles off it. -/
def headerScan (tables : List (List String)) : ColMap :=
  match tables.find? isHeaderRow with
  | some row => row.enum.foldl colStep ⟨-1, -1, -1⟩
  | none => ⟨-1, -1, -1⟩

/-- Python truthiness of `current_tx.get('amount')`. -/
def amtTruthy : Option ℚ → Bool
  | none => false
  | some v => v != 0

def skipKws : List String :=
  ["date", "description", "particular", "debit", "credit",
   "narration", "opening", "closing", "balance b/f", "total", "page"]

/-- The `(column, value)` list of `amounts` for one cleaned row. -/
def rowAmounts (row : List String) : List (ℕ × ℚ) :=
  row.enum.filterMap (fun ic => (is_amount ic.2).map (fun v => (ic.1, v)))

/-- The debit/credit amount-assignment loop (main.py 306-315): first amount
sitting in the debit column makes an expense, first in the credit column an
income; other columns are passed over. -/
def assignDC (debit credit : Int) : List (ℕ × ℚ) → ProvTx → ProvTx
  | [], t => t
  | (i, v) :: rest, t =>
    if (i : Int) == debit then { t with amount := some v, txType := .expense }
    else if (i : Int) == credit then { t with amount := some v, txType := .income }
    else assignDC debit credit rest t

/-- The fallback amount selection on a dated row (main.py 317-321): first
amount outside the balance column and below the 1,000,000 sanity ceiling. -/
def firstNonBalanceCapped (balance : Int) : List (ℕ × ℚ) → Option ℚ
  | [] => none
  | (i, v) :: rest =>
    if (i : Int) != balance && v < 1000000 then some v
    else firstNonBalanceCapped balance rest

/-- The continuation-row amount selection (main.py 327-331): first amount
outside the balance column — note: no ceiling here. -/
def firstNonBalance (balance : Int) : List (ℕ × ℚ) → Option ℚ
  | [] => none
  | (i, v) :: rest =>
    if (i : Int) != balance then some v else firstNonBalance balance rest

/-- One iteration of the second pass (main.py 260-331) on the state
`(current_tx, transactions)`. -/
def stepRow (cm : ColMap) (st : Option ProvTx × List ProvTx) (row0 : List String) :
    Option ProvTx × List ProvTx :=
  if row0.isEmpty then st
  else
    let row := row0.map pyStrip
    let rowLower := lowerL (joinSpace (row.map String.data))
    if skipKws.any (fun kw => containsSeq kw.data rowLower) then st
    else if row.all (fun c => c.data.isEmpty) then st
    else
      let txDate := find_date_in_row row
      let amounts := rowAmounts row
      let texts := (row.filter is_text_cell).map String.data
      match txDate with
      | some d =>
        let txs :=
          match st.1 with
          | some t => if amtTruthy t.amount then st.2 ++ [t] else st.2
          | none => st.2
        let t0 : ProvTx := ⟨d, texts, none, .expense⟩
        let t1 :=
          if amounts.isEmpty then t0
          else if 0 ≤ cm.debit && 0 ≤ cm.credit then assignDC cm.debit cm.credit amounts t0
          else
            match firstNonBalanceCapped cm.balance amounts with
            | some v => { t0 with amount := some v }
            | none => t0
        (some t1, txs)
      | none =>
        match st.1 with
        | none => st
        | some t =>
          let t1 := { t with parts := t.parts ++ texts }
          let t2 :=
            if !amtTruthy t1.amount && !amounts.isEmpty then
              match firstNonBalance cm.balance amounts with
              | some v => { t1 with amount := some v }
              | none => t1
            else t1
          (some t2, st.2)

/-- The whole second pass plus the trailing flush (main.py 258-335). -/
def tablePass (cm : ColMap) (tables : List (List String)) : List ProvTx :=
  let st := tables.foldl (stepRow cm) (none, [])
  match st.1 with
  | some t => if amtTruthy t.amount then st.2 ++ [t] else st.2
  | none => st.2

/-- Description cleanup of the post-processing pass (main.py 343-349):
space-join the fragments, strip, collapse whitespace, trim leading and trailing
colon/dash/whitespace runs. -/
def isColonDashWs (c : Char) : Bool := c == ':' || c == '-' || pyIsSpace c

def cleanDesc (parts : List (List Char)) : List Char :=
  let d := stripL (joinSpace parts)
  let d := collapseRuns pyIsSpace ' ' d
  let d := d.dropWhile isColonDashWs
  (d.reverse.dropWhile isColonDashWs).reverse

/-- The table pipeline's categorizer (main.py 367-379). -/
def categorizeTable (descLower : List Char) : String :=
  if anyKwIn ["food", "restaurant", "cafe", "pizza", "kfc", "mcdonald", "eat"] descLower then
    "Food"
  else if anyKwIn ["amazon", "shop", "store", "mall", "daraz", "purchase"] descLower then
    "Shopping"
  else if anyKwIn ["uber", "careem", "fuel", "petrol", "bus", "metro", "transport"] descLower then
    "Transport"
  else if anyKwIn ["electric", "gas", "water", "internet", "ptcl", "jazz", "zong", "bill"] descLower then
    "Utilities"
  else if anyKwIn ["transfer", "sent to", "received from"] descLower then
    "Transfer"
  else "Other"

/-- The income-override keywords of the table pipeline (main.py 382). -/
def tableRecvKws : List String :=
  ["credit", "received", "deposit", "incoming", "salary", "refund"]

/-- One step of the post-processing pass (main.py 341-391): validate the
cleaned description, require a truthy positive amount, dedup on
`(description[:30], amount)`, categorize, apply the income keyword override,
and emit with the description truncated to 100 characters. -/
def finalizeStep (acc : List (List Char × ℚ) × List FinalTx) (t : ProvTx) :
    List (List Char × ℚ) × List FinalTx :=
  let desc := cleanDesc t.parts
  if !is_valid_description ⟨desc⟩ then acc
  else
    match t.amount with
    | none => acc
    | some v =>
      if v == 0 then acc
      else if v ≤ 0 then acc
      else
        let key := (desc.take 30, v)
        if acc.1.contains key then acc
        else
          let dl := lowerL desc
          let category := categorizeTable dl
          let ty := if anyKwIn tableRecvKws dl then TxType.income else t.txType
          (acc.1 ++ [key], acc.2 ++ [⟨⟨desc.take 100⟩, v, some t.date, ty, category⟩])

/-- `parse_table_transactions` (main.py 176-394), with the statement-period
arguments at their default `None` (no caller passes them and they are unused in
the function body). -/
def parse_table_transactions (tables : List (List String)) : List FinalTx :=
  ((tablePass (headerScan tables) tables).foldl finalizeStep ([], [])).2

end BankParse

namespace BankParse

/-! ## Free-text line parser `parse_transactions_regex` (main.py 539-652) -/

/-- A detected statement period as the strategies report it. -/
structure DetectedPeriod where
  month : Option String
  year : Option Int
  start_date : Option String
  end_date : Option String
  raw : Option String
deriving DecidableEq

/-- The dict `{"transactions": ..., "detected_period": ...}` that both the
regex strategy and the AI strategy return. -/
structure StrategyResult where
  transactions : List FinalTx
  detected_period : Option DetectedPeriod
deriving DecidableEq

/-- Leading `(?:Rs\.?\s*|PKR\s*|₨\s*)?` of the amount regex (case-sensitive:
`re.findall` is called without flags); returns the consumed length, 0 when the
optional prefix is absent. -/
def rxCurrencyLen (l : List Char) : ℕ :=
  match l with
  | '₨' :: _ => 1 + ((l.drop 1).takeWhile pyIsSpace).length
  | 'R' :: 's' :: rest =>
    let n : ℕ :=
      match rest with
      | '.' :: _ => 3
      | _ => 2
    n + ((l.drop n).takeWhile pyIsSpace).length
  | 'P' :: 'K' :: 'R' :: _ => 3 + ((l.drop 3).takeWhile pyIsSpace).length
  | _ => 0

/-- The `(?:,\d{3})*` thousands groups: greedily consume `,ddd` blocks.
Returns (consumed, rest). -/
def thousandsGroups : List Char → List Char × List Char
  | ',' :: a :: b :: c :: rest =>
    if a.isDigit && b.isDigit && c.isDigit then
      let (t, r) := thousandsGroups rest
      (',' :: a :: b :: c :: t, r)
    else ([], ',' :: a :: b :: c :: rest)
  | l => ([], l)

/-- The `(?:\.\d{1,2})?` decimal tail, greedy.  Returns (consumed, rest). -/
def decTwo : List Char → List Char × List Char
  | '.' :: a :: rest =>
    if a.isDigit then
      match rest with
      | b :: rest2 =>
        if b.isDigit then (['.', a, b], rest2) else (['.', a], b :: rest2)
      | [] => (['.', a], [])
    else ([], '.' :: a :: rest)
  | l => ([], l)

/-- One match attempt of the amount regex
`(?:Rs\.?\s*|PKR\s*|₨\s*)?(\d{1,3}(?:,\d{3})*(?:\.\d{1,2})?|\d+(?:\.\d{1,2})?)`
at the head of `l`: the second alternative is subsumed by the first (any digit
run lets `\d{1,3}` match), and all quantifiers after the first digits are
greedy with nothing behind them that could fail, so no backtracking arises.
Returns (capture-group text, rest after the whole match). -/
def matchNumAt (l : List Char) : Option (List Char × List Char) :=
  let l2 := l.drop (rxCurrencyLen l)
  let ds := l2.takeWhile Char.isDigit
  if ds.isEmpty then none
  else
    let d3 := ds.take 3
    let (th, r2) := thousandsGroups (l2.drop d3.length)
    let (dc, r3) := decTwo r2
    some (d3 ++ th ++ dc, r3)

/-- `re.findall` of the amount regex: leftmost, non-overlapping, resuming after
each whole match.  Fuel: the subject length (every step consumes a char). -/
def findAmountsAux : ℕ → List Char → List (List Char)
  | _, [] => []
  | 0, _ => []
  | fuel + 1, l =>
    match matchNumAt l with
    | some (tok, rest) => tok :: findAmountsAux fuel rest
    | none => findAmountsAux fuel l.tail

def findAmounts (l : List Char) : List (List Char) := findAmountsAux l.length l

/-- `float(m.replace(',', ''))` for a token the amount regex produced. -/
def parseNumToken (m : List Char) : Option ℚ :=
  parseAmountToken (m.filter (fun c => c != ','))

/-- Exactly `n` digits from the head of `l` (digit-count candidates are
enumerated by the callers in greedy order). -/
def tryDigits (l : List Char) (n : ℕ) : Option (List Char × List Char) :=
  let d := (l.takeWhile Char.isDigit).take n
  if d.length == n then some (d, l.drop n) else none

/-- First alternative of the line-date regex:
`\d{1,2} sep \d{1,2} sep \d{2,4}` (sep a dash or slash), greedy counts. -/
def lineDate1 (l : List Char) : Option (List Char) :=
  [2, 1].findSome? fun n1 =>
    match tryDigits l n1 with
    | none => none
    | some (d1, r1) =>
      match r1 with
      | s1 :: r2 =>
        if !(s1 == '-' || s1 == '/') then none
        else
          [2, 1].findSome? fun n2 =>
            match tryDigits r2 n2 with
            | none => none
            | some (d2, r3) =>
              match r3 with
              | s2 :: r4 =>
                if !(s2 == '-' || s2 == '/') then none
                else
                  [4, 3, 2].findSome? fun n3 =>
                    match tryDigits r4 n3 with
                    | none => none
                    | some (d3, _) => some (d1 ++ s1 :: d2 ++ s2 :: d3)
              | [] => none
      | [] => none

/-- Second alternative: `\d{1,2}\s+(?:Jan|...|Dec)[a-z]*\s*\d{0,4}`,
`re.IGNORECASE`; the trailing `\s*` is greedy even when no digits follow. -/
def lineDate2 (l : List Char) : Option (List Char) :=
  [2, 1].findSome? fun n1 =>
    match tryDigits l n1 with
    | none => none
    | some (d1, r1) =>
      let ws := r1.takeWhile pyIsSpace
      if ws.isEmpty then none
      else
        let r2 := r1.drop ws.length
        let lets := r2.takeWhile Char.isAlpha
        if !startsWithMonth3 lets then none
        else
          let r3 := r2.drop lets.length
          let ws2 := r3.takeWhile pyIsSpace
          let dg := ((r3.drop ws2.length).takeWhile Char.isDigit).take 4
          some (d1 ++ ws ++ lets ++ ws2 ++ dg)

/-- `re.search` of the line-date regex: leftmost position, first alternative
preferred. -/
def searchLineDateAux : ℕ → List Char → Option (List Char)
  | _, [] => none
  | 0, _ => none
  | fuel + 1, l =>
    match lineDate1 l with
    | some g => some g
    | none =>
      match lineDate2 l with
      | some g => some g
      | none => searchLineDateAux fuel l.tail

def searchLineDate (l : List Char) : Option (List Char) := searchLineDateAux l.length l

/-- One match of `(?:Rs\.?|PKR|₨)\s*` (the description-cleanup sub,
`re.IGNORECASE`) at the head of `l`: consumed length, 0 when no match. -/
def subCurrencyLen (l : List Char) : ℕ :=
  match l with
  | '₨' :: _ => 1 + ((l.drop 1).takeWhile pyIsSpace).length
  | a :: b :: rest =>
    if a.toLower == 'r' && b.toLower == 's' then
      let n : ℕ :=
        match rest with
        | '.' :: _ => 3
        | _ => 2
      n + ((l.drop n).takeWhile pyIsSpace).length
    else if a.toLower == 'p' && b.toLower == 'k' then
      match rest with
      | c :: _ =>
        if c.toLower == 'r' then 3 + ((l.drop 3).takeWhile pyIsSpace).length else 0
      | [] => 0
    else 0
  | _ => 0

/-- `re.sub(r'(?:Rs\.?|PKR|₨)\s*', '', s, flags=re.IGNORECASE)`. -/
def stripCurrencyAux : ℕ → List Char → List Char
  | _, [] => []
  | 0, l => l
  | fuel + 1, l =>
    let n := subCurrencyLen l
    if n == 0 then
      match l with
      | [] => []
      | c :: cs => c :: stripCurrencyAux fuel cs
    else stripCurrencyAux fuel (l.drop n)

def stripCurrencySub (l : List Char) : List Char := stripCurrencyAux l.length l

/-- The dash/slash/dot/comma/whitespace class of the description-cleanup sub. -/
def isSepClass (c : Char) : Bool :=
  c == '-' || c == '/' || c == '.' || c == ',' || pyIsSpace c

def lineSkipKws : List String :=
  ["balance", "total", "opening", "closing", "date", "description",
   "particular", "narration", "page", "statement", "account"]

def receiveKws : List String :=
  ["credit", "cr", "deposit", "received", "salary", "transfer in",
   "incoming", "refund", "cashback", "reversal", "credited"]

def sendKws : List String :=
  ["debit", "dr", "withdrawal", "payment", "purchase", "transfer out",
   "outgoing", "debited", "paid"]

/-- The free-text categorizer (main.py 631-641). -/
def categorizeRegex (descLower : List Char) : String :=
  if anyKwIn ["food", "restaurant", "cafe", "pizza", "kfc", "mcdonald"] descLower then
    "Food"
  else if anyKwIn ["amazon", "shop", "store", "mall", "daraz"] descLower then
    "Shopping"
  else if anyKwIn ["uber", "careem", "fuel", "petrol", "bus", "metro"] descLower then
    "Transport"
  else if anyKwIn ["electric", "gas", "water", "internet", "ptcl", "jazz", "zong"] descLower then
    "Utilities"
  else "Other"

/-- The `amounts` filter of main.py 571-578: keep the strictly positive parsed
values of one extracted token. -/
def pickPos (m : List Char) : Option ℚ :=
  match parseNumToken m with
  | some v => if 0 < v then some v else none
  | none => none

/-- The positive numeric-token values extracted from one (stripped) line. -/
def lineVals (l : List Char) : List ℚ := (findAmounts l).filterMap pickPos

/-- Processing of one physical line by `parse_transactions_regex`
(main.py 549-649), up to but excluding the dedup step: `None` when the line is
skipped, otherwise the transaction dict it builds. -/
def processLine (line0 : String) : Option FinalTx :=
  let l := stripL line0.data
  if l.isEmpty || l.length < 8 then none
  else
    let ll := lowerL l
    if lineSkipKws.any (fun kw => containsSeq kw.data ll) then none
    else
      let ams := findAmounts l
      if ams.isEmpty then none
      else
        let vals := lineVals l
        if vals.isEmpty then none
        else
          let amount :=
            if vals.length == 1 then vals.getD 0 0
            else if 2 ≤ vals.length then vals.getD (vals.length - 2) 0
            else vals.getD 0 0
          let txDate := searchLineDate l
          let d1 := ams.foldl (fun acc m => replaceAll m [' '] acc) l
          let d2 :=
            match txDate with
            | some dt => replaceAll dt [' '] d1
            | none => d1
          let d3 := stripCurrencySub d2
          let d4 := stripL (collapseRuns isSepClass ' ' d3)
          let d5 := collapseRuns pyIsSpace ' ' d4
          if d5.length < 3 || !reSearch (mkSeq (reRep reLetter 2) (.star reLetter)) d5 then
            none
          else
            let description := d5.take 100
            let ty :=
              if receiveKws.any (fun kw => containsSeq kw.data ll) then TxType.income
              else if sendKws.any (fun kw => containsSeq kw.data ll) then TxType.expense
              else TxType.expense
            some ⟨⟨description⟩, amount, txDate.map (fun d => (⟨d⟩ : String)),
                  ty, categorizeRegex (lowerL description)⟩

/-- `parse_transactions_regex` (main.py 539-652): per-line processing, dedup on
`(description[:30], amount)`, cap at 100 transactions, and a detected period
that is always `None`. -/
def regexStep (acc : List (List Char × ℚ) × List FinalTx) (ln : List Char) :
    List (List Char × ℚ) × List FinalTx :=
  match processLine ⟨ln⟩ with
  | none => acc
  | some tx =>
    let key := (tx.description.data.take 30, tx.amount)
    if acc.1.contains key then acc
    else (acc.1 ++ [key], acc.2 ++ [tx])

def parse_transactions_regex (text : String) : StrategyResult :=
  ⟨((splitOnChar '\n' text.data).foldl regexStep ([], [])).2.take 100, none⟩

end BankParse

namespace BankParse

/-! ## AI-strategy dispatch `parse_transactions_with_ai` (main.py 472-536)

The external collaborators are oracles: `hasApiKey` is "an API key was found in
the environment or the backend .env file", `hasGroqLib` is "the groq import
succeeded", `callResult` is the outcome of the chat-completion call (`none`
when the call raised), and `loadJson` is `json.loads` restricted to the
response schema (`none` when it raises). -/

structure AiEnv where
  hasApiKey : Bool
  hasGroqLib : Bool
  callResult : Option String

/-- Longest prefix of `l` ending at the last `'\x7d'`-brace, `none` if there is
no closing brace. -/
def untilLastClose : List Char → Option (List Char)
  | [] => none
  | c :: cs =>
    match untilLastClose cs with
    | some t => some (c :: t)
    | none => if c == '}' then some [c] else none

/-- `re.search` of an opening brace, then greedily anything, then a closing
brace (the JSON-block extraction regex of main.py 527): from the first opening
brace through the last closing brace after it. -/
def braceSpan : List Char → Option (List Char)
  | [] => none
  | c :: rest =>
    if c == '{' then
      match untilLastClose rest with
      | some t => some (c :: t)
      | none => none
    else braceSpan rest

/-- `parse_transactions_with_ai` (main.py 472-536): no key or no groq library →
regex fallback; call raised → regex fallback (the bare `except`); response with
no JSON block → empty result; `json.loads` raised → regex fallback (same bare
`except`); parsed JSON → returned as-is. -/
def parse_transactions_with_ai (env : AiEnv) (loadJson : String → Option StrategyResult)
    (text : String) : StrategyResult :=
  if !env.hasApiKey || !env.hasGroqLib then parse_transactions_regex text
  else
    match env.callResult with
    | none => parse_transactions_regex text
    | some content =>
      match braceSpan content.data with
      | none => ⟨[], none⟩
      | some j =>
        match loadJson ⟨j⟩ with
        | none => parse_transactions_regex text
        | some r => r

/-! ## `extract_transactions_from_text` (pdf-service/app.py 30-74)

The transaction-line regex
`(\d{1,2}[\/\-\.]\d{1,2}[\/\-\.]\d{2,4})\s+(.+?)\s+([\d,]+\.?\d*)\s*(DR|CR|Cr|Dr)?`
is hand-compiled with Python's backtracking priorities: bounded `\d{m,n}`
greedy (larger counts first), `\s+` greedy, `(.+?)` lazy (shorter first,
`.` never matching a newline), the amount tail greedy and — being followed only
by optional parts — deterministic, and the `DR|CR|Cr|Dr` alternatives tried in
order, case-sensitively.  `uuid.uuid4()` is an oracle `g` giving the fresh id
for each appended transaction. -/

structure PdfTx where
  id : String
  date : String
  description : String
  amount : ℚ
  txType : TxType
  confidence : ℚ
deriving DecidableEq

/-- A `PdfTx` with the run-dependent `id` field erased. -/
structure PdfTxBody where
  date : String
  description : String
  amount : ℚ
  txType : TxType
  confidence : ℚ
deriving DecidableEq

def eraseId (t : PdfTx) : PdfTxBody :=
  ⟨t.date, t.description, t.amount, t.txType, t.confidence⟩

def pdfSep (c : Char) : Bool := c == '/' || c == '-' || c == '.'

/-- Candidate whitespace-run lengths for a greedy `\s+`: longest first. -/
def downFrom : ℕ → List ℕ
  | 0 => []
  | n + 1 => (n + 1) :: downFrom n

/-- Candidate `(.+?)` lengths: shortest first. -/
def upFrom1 (hi : ℕ) : List ℕ := (List.range hi).map (fun k => k + 1)

/-- `\s+([\d,]+\.?\d*)\s*(DR|CR|Cr|Dr)?` at the head of `r`.  After the
required whitespace and at least one digit-or-comma, every remaining part is
optional or a star, so greedy matching is deterministic. -/
def pdfTailAfterDesc (r : List Char) : Option (List Char × Option (List Char)) :=
  let ws := r.takeWhile pyIsSpace
  if ws.isEmpty then none
  else
    let r2 := r.drop ws.length
    let am := r2.takeWhile (fun c => c.isDigit || c == ',')
    if am.isEmpty then none
    else
      let r3 := r2.drop am.length
      let (dot, r4) :=
        match r3 with
        | '.' :: rest => (['.'], rest)
        | _ => (([] : List Char), r3)
      let dg := r4.takeWhile Char.isDigit
      let r5 := r4.drop dg.length
      let r6 := r5.drop (r5.takeWhile pyIsSpace).length
      let drcr : Option (List Char) :=
        match r6 with
        | 'D' :: 'R' :: _ => some ['D', 'R']
        | 'C' :: 'R' :: _ => some ['C', 'R']
        | 'C' :: 'r' :: _ => some ['C', 'r']
        | 'D' :: 'r' :: _ => some ['D', 'r']
        | _ => none
      some (am ++ dot ++ dg, drcr)

/-- `\s+(.+?)` followed by `pdfTailAfterDesc`, with `\s+` greedy and `(.+?)`
lazy. -/
def pdfAfterDate (r : List Char) : Option (List Char × List Char × Option (List Char)) :=
  (downFrom (r.takeWhile pyIsSpace).length).findSome? fun w1 =>
    let r1 := r.drop w1
    (upFrom1 r1.length).findSome? fun k =>
      let desc := r1.take k
      if desc.any (fun c => c == '\n') then none
      else
        match pdfTailAfterDesc (r1.drop k) with
        | some (am, drcr) => some (desc, am, drcr)
        | none => none

/-- The whole pdf-service transaction pattern at one position:
returns (date, raw description, amount string, dr-cr group). -/
def pdfMatchAt (l : List Char) :
    Option (List Char × List Char × List Char × Option (List Char)) :=
  [2, 1].findSome? fun n1 =>
    match tryDigits l n1 with
    | none => none
    | some (d1, r1) =>
      match r1 with
      | s1 :: r2 =>
        if !pdfSep s1 then none
        else
          [2, 1].findSome? fun n2 =>
            match tryDigits r2 n2 with
            | none => none
            | some (d2, r3) =>
              match r3 with
              | s2 :: r4 =>
                if !pdfSep s2 then none
                else
                  [4, 3, 2].findSome? fun n3 =>
                    match tryDigits r4 n3 with
                    | none => none
                    | some (d3, r5) =>
                      match pdfAfterDate r5 with
                      | some (desc, am, drcr) =>
                        some (d1 ++ s1 :: d2 ++ s2 :: d3, desc, am, drcr)
                      | none => none
              | [] => none
      | [] => none

/-- `re.search` of the pdf-service pattern: leftmost starting position wins. -/
def pdfSearchAux : ℕ → List Char →
    Option (List Char × List Char × List Char × Option (List Char))
  | _, [] => none
  | 0, _ => none
  | fuel + 1, l =>
    match pdfMatchAt l with
    | some m => some m
    | none => pdfSearchAux fuel l.tail

def pdfSearch (l : List Char) :
    Option (List Char × List Char × List Char × Option (List Char)) :=
  pdfSearchAux l.length l

/-- `float(amount_str.replace(',', ''))` for a `[\d,]+\.?\d*` token, `none`
when `float` raises (no digits at all). -/
def parsePdfAmount (tok : List Char) : Option ℚ :=
  let t := tok.filter (fun c => c != ',')
  let ds := t.takeWhile Char.isDigit
  match t.drop ds.length with
  | [] => if ds.isEmpty then none else some (digitsToNat ds : ℚ)
  | '.' :: fs =>
    if ds.isEmpty && fs.isEmpty then none
    else some (mkRat (digitsToNat ds * 10 ^ fs.length + digitsToNat fs) (10 ^ fs.length))
  | _ => none

/-- One line of `extract_transactions_from_text` (app.py 45-72), without the
fresh id: `None` when the line is skipped. -/
def pdfLineTx (ln : List Char) : Option (String × String × ℚ × TxType) :=
  let l := stripL ln
  if l.length < 10 then none
  else
    match pdfSearch l with
    | none => none
    | some (dt, desc, am, drcr) =>
      match parsePdfAmount am with
      | none => none
      | some v =>
        if 0 < v && v < 100000000 then
          let ty :=
            if drcr == some ['D', 'R'] || drcr == some ['D', 'r'] then TxType.expense
            else if drcr == some ['C', 'R'] || drcr == some ['C', 'r'] then TxType.income
            else TxType.expense
          some (⟨dt⟩, ⟨(stripL desc).take 100⟩, v, ty)
        else none

/-- The accumulation loop of `extract_transactions_from_text`; `g` supplies the
`uuid.uuid4()` value for each appended transaction. -/
def pdfGo (g : ℕ → String) : List (List Char) → List PdfTx → List PdfTx
  | [], acc => acc
  | ln :: rest, acc =>
    match pdfLineTx ln with
    | none => pdfGo g rest acc
    | some (dt, desc, v, ty) =>
      pdfGo g rest (acc ++ [⟨g acc.length, dt, desc, v, ty, mkRat 7 10⟩])

/-- `extract_transactions_from_text` (app.py 30-74). -/
def extract_transactions_from_text (g : ℕ → String) (text : String) : List PdfTx :=
  (pdfGo g (splitOnChar '\n' text.data) []).take 100

end BankParse

namespace BankParse

/-! ## Period Detector — modelled from the spec (spec section 4.6)

None of the three python source files implements the Period Detector: the regex
strategy always returns `detected_period = None` (main.py 652) and
`parse_document` only forwards whatever period the external AI collaborator
reported.  The spec describes the detector as part of this repository (its
line budget exceeds the python sources), so the component is modelled here from
the spec's words. -/

/-- Zero-padded two-digit rendering of a day or month number. -/
def pad2 (n : ℕ) : String :=
  if n < 10 then ⟨['0', Char.ofNat ('0'.toNat + n)]⟩ else toString n

/-- `YYYY-MM-DD` rendering. -/
def isoDate (y m d : ℕ) : String :=
  toString y ++ "-" ++ pad2 m ++ "-" ++ pad2 d

/-- Modelled from the spec: "year expansion for 2-digit years assumes
2000+YY". -/
def expandYear (y : ℕ) : ℕ := if y < 100 then 2000 + y else y

/-- Modelled from the spec: a "date-like group" `D(D)?/M(M)?/YY(YY)?` with a
dash or slash separator, parsed as day, month, year. -/
def rangeDateAt (l : List Char) : Option ((ℕ × ℕ × ℕ) × List Char) :=
  [2, 1].findSome? fun n1 =>
    match tryDigits l n1 with
    | none => none
    | some (d1, r1) =>
      match r1 with
      | s1 :: r2 =>
        if !(s1 == '/' || s1 == '-') then none
        else
          [2, 1].findSome? fun n2 =>
            match tryDigits r2 n2 with
            | none => none
            | some (d2, r3) =>
              match r3 with
              | s2 :: r4 =>
                if !(s2 == '/' || s2 == '-') then none
                else
                  [4, 3, 2].findSome? fun n3 =>
                    match tryDigits r4 n3 with
                    | none => none
                    | some (d3, r5) =>
                      some ((digitsToNat d1, digitsToNat d2, digitsToNat d3), r5)
              | [] => none
      | [] => none

/-- Modelled from the spec: the range separator "to" / "-" / an en-dash,
with surrounding whitespace tolerated. -/
def rangeSepAt (l : List Char) : Option (List Char) :=
  let r := l.dropWhile pyIsSpace
  match r with
  | a :: b :: rest =>
    if a.toLower == 't' && b.toLower == 'o' then some (rest.dropWhile pyIsSpace)
    else if a == '-' || a == '–' then some ((b :: rest).dropWhile pyIsSpace)
    else none
  | [a] => if a == '-' || a == '–' then some [] else none
  | [] => none

/-- Modelled from the spec, strategy (b): "two date-like groups separated by
to / - / an en-dash → explicit start/end range", 2-digit years expanded. -/
def rangeAt (l : List Char) : Option DetectedPeriod :=
  match rangeDateAt l with
  | none => none
  | some ((d1, m1, y1), r1) =>
    match rangeSepAt r1 with
    | none => none
    | some r2 =>
      match rangeDateAt r2 with
      | none => none
      | some ((d2, m2, y2), _) =>
        some ⟨none, some (expandYear y1 : Int),
              some (isoDate (expandYear y1) m1 d1),
              some (isoDate (expandYear y2) m2 d2), none⟩

def monthTable : List (String × ℕ) :=
  [("January", 1), ("February", 2), ("March", 3), ("April", 4), ("May", 5),
   ("June", 6), ("July", 7), ("August", 8), ("September", 9), ("October", 10),
   ("November", 11), ("December", 12)]

/-- Modelled from the spec, strategy (a): "`MonthName[,] YYYY` anywhere in text
→ exact month/year, with start = day 1 and end = day 28 of that month". -/
def monthYearAt (l : List Char) : Option DetectedPeriod :=
  monthTable.findSome? fun mn =>
    if (lowerL mn.1.data).isPrefixOf (lowerL l) then
      let r0 := l.drop mn.1.data.length
      let r1 :=
        match r0 with
        | ',' :: rest => rest
        | _ => r0
      let ds := (r1.dropWhile pyIsSpace).takeWhile Char.isDigit
      if ds.length == 4 then
        let y := digitsToNat ds
        some ⟨some mn.1, some (y : Int), some (isoDate y mn.2 1),
              some (isoDate y mn.2 28), none⟩
      else none
    else none

/-- Modelled from the spec, strategy (c): "any 4-digit year in range 2024-2039
→ assume current calendar month for that year".  The current month is an
oracle argument. -/
def bareYearAt (currentMonth : String) (l : List Char) : Option DetectedPeriod :=
  let ds := l.takeWhile Char.isDigit
  if ds.length == 4 then
    let y := digitsToNat ds
    if 2024 ≤ y && y ≤ 2039 then
      some ⟨some currentMonth, some (y : Int), none, none, none⟩
    else none
  else none

/-- Leftmost match of a positional matcher (fuel = subject length). -/
def scanForAux (f : List Char → Option DetectedPeriod) :
    ℕ → List Char → Option DetectedPeriod
  | _, [] => none
  | 0, _ => none
  | fuel + 1, l =>
    match f l with
    | some p => some p
    | none => scanForAux f fuel l.tail

def scanFor (f : List Char → Option DetectedPeriod) (l : List Char) :
    Option DetectedPeriod :=
  scanForAux f l.length l

/-- Modelled from the spec: the Period Detector, "three ordered strategies,
first match wins; no match → null period" (spec section 4.6). -/
def detect_period (currentMonth : String) (text : String) : Option DetectedPeriod :=
  match scanFor monthYearAt text.data with
  | some p => some p
  | none =>
    match scanFor rangeAt text.data with
    | some p => some p
    | none => scanFor (bareYearAt currentMonth) text.data

end BankParse

namespace BankParse

/-! ## Helper lemmas -/

theorem isPrefixOf_true_iff (l1 l2 : List Char) : l1.isPrefixOf l2 = true ↔ l1 <+: l2 := by
  induction l1 generalizing l2 with
  | nil => simp [List.isPrefixOf]
  | cons a t ih =>
    cases l2 with
    | nil => simp [List.isPrefixOf]
    | cons b t2 => simp [List.isPrefixOf, ih, List.cons_prefix_cons]

theorem containsSeq_true_iff (pat l : List Char) : containsSeq pat l = true ↔ pat <:+: l := by
  induction l with
  | nil => simp [containsSeq, List.isEmpty_iff]
  | cons c cs ih => simp [containsSeq, isPrefixOf_true_iff, ih, List.infix_cons_iff]

theorem take_isInfix (n : ℕ) (l : List Char) : l.take n <:+: l :=
  ⟨[], l.drop n, by simp⟩

theorem containsSeq_of_take (pat l : List Char) (n : ℕ)
    (h : containsSeq pat (l.take n) = true) : containsSeq pat l = true := by
  rw [containsSeq_true_iff] at h ⊢
  exact h.trans (take_isInfix n l)

theorem anyKwIn_of_take (kws : List String) (l : List Char) (n : ℕ)
    (h : anyKwIn kws (l.take n) = true) : anyKwIn kws l = true := by
  unfold anyKwIn at h ⊢
  rcases List.any_eq_true.1 h with ⟨k, hk, hc⟩
  exact List.any_eq_true.2 ⟨k, hk, containsSeq_of_take _ _ _ hc⟩

theorem getD_mem (l : List ℚ) (i : ℕ) (h : i < l.length) : l.getD i 0 ∈ l := by
  rw [List.getD_eq_getElem l 0 h]
  exact List.getElem_mem h

/-- What `finalizeStep` can do: leave the accumulator unchanged, or append one
record built from a validated cleaned description and a positive amount. -/
theorem finalizeStep_mem (acc : List (List Char × ℚ) × List FinalTx) (t : ProvTx)
    (tx : FinalTx) (h : tx ∈ (finalizeStep acc t).2) :
    tx ∈ acc.2 ∨
      ∃ v : ℚ, t.amount = some v ∧ ¬v ≤ 0 ∧
        is_valid_description ⟨cleanDesc t.parts⟩ = true ∧
        tx = ⟨⟨(cleanDesc t.parts).take 100⟩, v, some t.date,
              (if anyKwIn tableRecvKws (lowerL (cleanDesc t.parts)) then TxType.income
               else t.txType),
              categorizeTable (lowerL (cleanDesc t.parts))⟩ := by
  simp only [finalizeStep] at h
  split at h
  · exact Or.inl h
  · rename_i hvalid
    split at h
    · exact Or.inl h
    · rename_i v hamt
      split at h
      · exact Or.inl h
      · split at h
        · exact Or.inl h
        · rename_i hz hle
          split at h
          · exact Or.inl h
          · simp only [List.mem_append, List.mem_singleton] at h
            rcases h with h | h
            · exact Or.inl h
            · refine Or.inr ⟨v, hamt, hle, ?_, h⟩
              simpa using hvalid

/-- Membership in the post-processing fold, traced back to the provisional
transaction that produced the record. -/
theorem foldl_finalize_mem (ts : List ProvTx)
    (acc : List (List Char × ℚ) × List FinalTx) (tx : FinalTx)
    (h : tx ∈ (ts.foldl finalizeStep acc).2) :
    tx ∈ acc.2 ∨
      ∃ t : ProvTx, ∃ v : ℚ, t.amount = some v ∧ ¬v ≤ 0 ∧
        is_valid_description ⟨cleanDesc t.parts⟩ = true ∧
        tx = ⟨⟨(cleanDesc t.parts).take 100⟩, v, some t.date,
              (if anyKwIn tableRecvKws (lowerL (cleanDesc t.parts)) then TxType.income
               else t.txType),
              categorizeTable (lowerL (cleanDesc t.parts))⟩ := by
  induction ts generalizing acc with
  | nil => exact Or.inl h
  | cons t ts ih =>
    rw [List.foldl_cons] at h
    rcases ih _ h with h1 | h1
    · rcases finalizeStep_mem _ _ _ h1 with h2 | h2
      · exact Or.inl h2
      · exact Or.inr ⟨t, h2⟩
    · exact Or.inr h1

/-- Every transaction of the table pipeline comes out of `finalizeStep`'s
append branch. -/
theorem parse_table_shape (tables : List (List String)) (tx : FinalTx)
    (h : tx ∈ parse_table_transactions tables) :
    ∃ t : ProvTx, ∃ v : ℚ, t.amount = some v ∧ ¬v ≤ 0 ∧
      is_valid_description ⟨cleanDesc t.parts⟩ = true ∧
      tx = ⟨⟨(cleanDesc t.parts).take 100⟩, v, some t.date,
            (if anyKwIn tableRecvKws (lowerL (cleanDesc t.parts)) then TxType.income
             else t.txType),
            categorizeTable (lowerL (cleanDesc t.parts))⟩ := by
  unfold parse_table_transactions at h
  rcases foldl_finalize_mem _ _ _ h with h1 | h1
  · simp at h1
  · exact h1

end BankParse

namespace BankParse

/-- Every value in `lineVals` is strictly positive (the filter keeps only
positive parses). -/
theorem lineVals_pos (l : List Char) : ∀ v ∈ lineVals l, 0 < v := by
  intro v hv
  unfold lineVals at hv
  rcases List.mem_filterMap.1 hv with ⟨m, _, hm⟩
  unfold pickPos at hm
  split at hm
  · rename_i w hw
    split at hm
    · rename_i hpos
      obtain rfl : w = v := Option.some.inj hm
      exact hpos
    · exact absurd hm (by simp)
  · exact absurd hm (by simp)

/-- Any transaction `processLine` emits has a nonempty positive-value list and
the amount selected by the length-directed rule of main.py 584. -/
theorem processLine_shape (line : String) (tx : FinalTx)
    (h : processLine line = some tx) :
    ¬(lineVals (stripL line.data)).isEmpty = true ∧
    tx.amount =
      (if (lineVals (stripL line.data)).length == 1 then
        (lineVals (stripL line.data)).getD 0 0
       else if 2 ≤ (lineVals (stripL line.data)).length then
        (lineVals (stripL line.data)).getD ((lineVals (stripL line.data)).length - 2) 0
       else (lineVals (stripL line.data)).getD 0 0) := by
  simp only [processLine] at h
  split at h
  · exact absurd h (by simp)
  · split at h
    · exact absurd h (by simp)
    · split at h
      · exact absurd h (by simp)
      · split at h
        · exact absurd h (by simp)
        · rename_i hvals
          split at h
          · exact absurd h (by simp)
          · obtain rfl : _ = tx := Option.some.inj h
            exact ⟨hvals, rfl⟩

/-- Amount positivity for the free-text parser. -/
theorem processLine_amount_pos (line : String) (tx : FinalTx)
    (h : processLine line = some tx) : 0 < tx.amount := by
  have hs := processLine_shape line tx h
  have hne : (lineVals (stripL line.data)).length ≠ 0 := by
    intro h0
    exact hs.1 (by simpa [List.isEmpty_iff, List.length_eq_zero] using h0)
  rw [hs.2]
  split
  · exact lineVals_pos (stripL line.data) _
      (getD_mem (lineVals (stripL line.data)) 0 (by omega))
  · split
    · exact lineVals_pos (stripL line.data) _
        (getD_mem (lineVals (stripL line.data)) _ (by omega))
    · exact lineVals_pos (stripL line.data) _
        (getD_mem (lineVals (stripL line.data)) 0 (by omega))

/-- `regexStep` either keeps the accumulator or appends the processed line. -/
theorem regexStep_mem (acc : List (List Char × ℚ) × List FinalTx) (ln : List Char)
    (tx : FinalTx) (h : tx ∈ (regexStep acc ln).2) :
    tx ∈ acc.2 ∨ processLine ⟨ln⟩ = some tx := by
  simp only [regexStep] at h
  split at h
  · exact Or.inl h
  · rename_i tx' heq
    split at h
    · exact Or.inl h
    · simp only [List.mem_append, List.mem_singleton] at h
      rcases h with h | h
      · exact Or.inl h
      · subst h
        exact Or.inr heq

/-- Every transaction of the free-text parser comes from some line. -/
theorem foldl_regex_mem (lns : List (List Char))
    (acc : List (List Char × ℚ) × List FinalTx) (tx : FinalTx)
    (h : tx ∈ (lns.foldl regexStep acc).2) :
    tx ∈ acc.2 ∨ ∃ ln : List Char, processLine ⟨ln⟩ = some tx := by
  induction lns generalizing acc with
  | nil => exact Or.inl h
  | cons ln lns ih =>
    rw [List.foldl_cons] at h
    rcases ih _ h with h1 | h1
    · rcases regexStep_mem _ _ _ h1 with h2 | h2
      · exact Or.inl h2
      · exact Or.inr ⟨ln, h2⟩
    · exact Or.inr h1

theorem parse_regex_mem (text : String) (tx : FinalTx)
    (h : tx ∈ (parse_transactions_regex text).transactions) :
    ∃ ln : List Char, processLine ⟨ln⟩ = some tx := by
  unfold parse_transactions_regex at h
  rcases foldl_regex_mem _ _ _ (List.mem_of_mem_take h) with h1 | h1
  · simp at h1
  · exact h1

end BankParse

namespace BankParse

/-- Removing a non-header row does not change the column-role scan. -/
theorem headerScan_skip (pre post : List (List String)) (r : List String)
    (hr : isHeaderRow r = false) :
    headerScan (pre ++ r :: post) = headerScan (pre ++ post) := by
  unfold headerScan
  rw [List.find?_append, List.find?_append, List.find?_cons_of_neg _ (by simp [hr])]

/-- A dateless row is a no-op of the second pass while no transaction is
open. -/
theorem stepRow_dateless_none (cm : ColMap) (acc : List ProvTx) (row : List String)
    (h : find_date_in_row (row.map pyStrip) = none) :
    stepRow cm (none, acc) row = (none, acc) := by
  simp only [stepRow, h]
  split
  · rfl
  · split
    · rfl
    · split
      · rfl
      · rfl

/-- Before the first dated row the second pass stays in its initial state. -/
theorem foldl_dateless (cm : ColMap) (pre : List (List String))
    (h : ∀ q ∈ pre, find_date_in_row (q.map pyStrip) = none) :
    pre.foldl (stepRow cm) (none, []) = (none, []) := by
  induction pre with
  | nil => rfl
  | cons q qs ih =>
    rw [List.foldl_cons, stepRow_dateless_none cm [] q (h q (by simp))]
    exact ih (fun x hx => h x (by simp [hx]))

end BankParse

namespace BankParse

/-! ## Claim theorems -/

/-- C1 (counterexample): the claim "every transaction emitted by either
strategy has a validator-accepted description" is false: on the single line
"ab 150.00 cd" the free-text parser emits a transaction whose description
"ab cd" is rejected by `is_valid_description` (the free-text parser never
calls the validator). -/
theorem C1_counterexample :
    (parse_transactions_regex "ab 150.00 cd").transactions =
      [⟨"ab cd", 150, none, .expense, "Other"⟩] ∧
    is_valid_description "ab cd" = false :=
  ⟨by decide, by decide⟩

/-- C1 (amended): every transaction emitted by the table pipeline has amount
strictly greater than 0 and a description that is the 100-character truncation
of a validator-accepted string; every transaction emitted by the free-text
line parser has amount strictly greater than 0 (its description is only
required to be at least 3 characters with a run of 2 letters, not
validator-accepted). -/
theorem C1_amended :
    (∀ (tables : List (List String)) (tx : FinalTx),
        tx ∈ parse_table_transactions tables →
          0 < tx.amount ∧
          ∃ s : String, is_valid_description s = true ∧
            tx.description = ⟨s.data.take 100⟩) ∧
    (∀ (text : String) (tx : FinalTx),
        tx ∈ (parse_transactions_regex text).transactions → 0 < tx.amount) := by
  constructor
  · intro tables tx h
    rcases parse_table_shape tables tx h with ⟨t, v, hamt, hle, hvalid, rfl⟩
    exact ⟨lt_of_not_le hle, ⟨⟨cleanDesc t.parts⟩, hvalid, rfl⟩⟩
  · intro text tx h
    rcases parse_regex_mem text tx h with ⟨ln, hln⟩
    exact processLine_amount_pos _ _ hln

/-- C1 (witness): the amended invariants at concrete emitted transactions. -/
theorem C1_amended_witness :
    (0 < (⟨"Grocery Mart Store", 700, some "01-02-2025", .expense, "Shopping"⟩ : FinalTx).amount ∧
      ∃ s : String, is_valid_description s = true ∧
        (⟨"Grocery Mart Store", 700, some "01-02-2025", .expense,
            "Shopping"⟩ : FinalTx).description = ⟨s.data.take 100⟩) ∧
    0 < (⟨"ab cd", 150, none, .expense, "Other"⟩ : FinalTx).amount :=
  ⟨C1_amended.1 [["01-02-2025", "Grocery Mart Store", "700", ""]] _ (by decide),
   C1_amended.2 "ab 150.00 cd" _ (by decide)⟩

/-- C2: the Description Validator's contract: the five specified test vectors,
and — for every string — acceptance only when the text contains a word of at
least 5 letters or at least two words of at least 3 letters each. -/
theorem C2_validator_contract :
    is_valid_description "" = false ∧
    is_valid_description ": PM" = false ∧
    is_valid_description "Phone: ()" = false ∧
    is_valid_description "Aug 2025" = false ∧
    is_valid_description "Grocery Store Purchase" = true ∧
    (∀ d : String, is_valid_description d = true →
      (letterRuns (stripL d.data)).any (fun w => 5 ≤ w.length) = true ∨
      2 ≤ ((letterRuns (stripL d.data)).filter (fun w => 3 ≤ w.length)).length) := by
  refine ⟨by decide, by decide, by decide, by decide, by decide, ?_⟩
  intro d h
  simp only [is_valid_description] at h
  split at h
  · exact absurd h (by simp)
  · split at h
    · exact absurd h (by simp)
    · split at h
      · exact absurd h (by simp)
      · split at h
        · exact absurd h (by simp)
        · split at h
          · exact absurd h (by simp)
          · split at h
            · rename_i hany
              exact Or.inl hany
            · split at h
              · exact absurd h (by simp)
              · rename_i hcnt
                exact Or.inr (by omega)

/-- C2 (witness): the acceptance condition evaluated at a concrete accepted
description. -/
theorem C2_validator_contract_witness :
    (letterRuns (stripL ("Grocery Store Purchase" : String).data)).any
        (fun w => 5 ≤ w.length) = true ∨
      2 ≤ ((letterRuns (stripL ("Grocery Store Purchase" : String).data)).filter
        (fun w => 3 ≤ w.length)).length :=
  C2_validator_contract.2.2.2.2.2 "Grocery Store Purchase" (by decide)

/-- C3: on the specified three-row table the reconstructor emits exactly one
transaction, with the continuation row's text appended to the dated row's
description, amount 500 and type expense. -/
theorem C3_table_reconstructor :
    parse_table_transactions
        [["Date", "Desc", "Debit", "Credit"],
         ["01-02-2025", "Grocery Mart", "500", ""],
         ["", "continued text", "", ""]] =
      [⟨"Grocery Mart continued text", 500, some "01-02-2025", .expense, "Other"⟩] ∧
    containsSeq "Grocery Mart".data "Grocery Mart continued text".data = true ∧
    containsSeq "continued text".data "Grocery Mart continued text".data = true :=
  ⟨by decide, by decide, by decide⟩

/-- C4 (counterexample): two parts of the claim are false on the code.
The sanity ceiling is not applied when debit/credit columns are known: the
table pipeline assigns 1000001 as a transaction amount.  And `is_amount` does
not strip a leading `$` (its class is only `[Rs.PKR₨\s]`), so "$100" is
rejected rather than parsed to 100. -/
theorem C4_counterexample :
    parse_table_transactions
        [["Date", "Desc", "Debit", "Credit"],
         ["01-02-2025", "Grocery Mart Store", "1000001", ""]] =
      [⟨"Grocery Mart Store", 1000001, some "01-02-2025", .expense, "Shopping"⟩] ∧
    is_amount "$100" = none :=
  ⟨by decide, by decide⟩

/-- C4 (amended): `is_amount` strips commas and spaces and a leading run of
`[Rs.PKR₨\s]` characters (not `$`, `€` or `₹`), accepts only
`digits(.digits<=2)?` with a strictly positive value — so "Rs. 1,234.50"
parses to 1234.50 (`mkRat 2469 2`) and "0" is rejected; and the 1,000,000
ceiling applies only to the fallback amount selection used on dated rows when
no debit/credit column mapping was found. -/
theorem C4_amended :
    is_amount "Rs. 1,234.50" = some (mkRat 2469 2) ∧
    is_amount "0" = none ∧
    (∀ (s : String) (v : ℚ), is_amount s = some v → 0 < v) ∧
    (∀ (balance : Int) (amounts : List (ℕ × ℚ)) (v : ℚ),
        firstNonBalanceCapped balance amounts = some v → v < 1000000) := by
  refine ⟨by decide, by decide, ?_, ?_⟩
  · intro s v h
    simp only [is_amount] at h
    split at h
    · exact absurd h (by simp)
    · split at h
      · rename_i w hw
        split at h
        · rename_i hpos
          obtain rfl : w = v := Option.some.inj h
          exact hpos
        · exact absurd h (by simp)
      · exact absurd h (by simp)
  · intro balance amounts
    induction amounts with
    | nil =>
      intro v h
      exact absurd h (by simp [firstNonBalanceCapped])
    | cons a rest ih =>
      intro v h
      obtain ⟨i, w⟩ := a
      simp only [firstNonBalanceCapped] at h
      split at h
      · rename_i hcond
        obtain rfl : w = v := Option.some.inj h
        simp only [Bool.and_eq_true, decide_eq_true_eq] at hcond
        exact hcond.2
      · exact ih v h

/-- C4 (witness): the amended universals at concrete inputs. -/
theorem C4_amended_witness :
    0 < (500 : ℚ) ∧ (5 : ℚ) < 1000000 :=
  ⟨C4_amended.2.2.1 "500" 500 (by decide),
   C4_amended.2.2.2 (-1) [(0, 5)] 5 (by decide)⟩

/-- C5: on the specified text the detected period has start date "2024-12-01"
and end date "2024-12-31"; the "to" separator works the same way; and 2-digit
years expand as 2000+YY.  (Against the spec-modelled Period Detector; the
`currentMonth` oracle of strategy (c) is irrelevant to these inputs.) -/
theorem C5_period_detection :
    (∀ cm : String,
        detect_period cm "Statement Period: 01/12/2024 - 31/12/2024" =
          some ⟨none, some 2024, some "2024-12-01", some "2024-12-31", none⟩) ∧
    (∀ cm : String,
        detect_period cm "From 01/12/24 to 31/12/24" =
          some ⟨none, some 2024, some "2024-12-01", some "2024-12-31", none⟩) ∧
    (∀ y : ℕ, y ≤ 99 → expandYear y = 2000 + y) := by
  refine ⟨?_, ?_, ?_⟩
  · intro cm
    unfold detect_period
    rw [show scanFor monthYearAt ("Statement Period: 01/12/2024 - 31/12/2024" : String).data =
        none from by decide]
    rw [show scanFor rangeAt ("Statement Period: 01/12/2024 - 31/12/2024" : String).data =
        some ⟨none, some 2024, some "2024-12-01", some "2024-12-31", none⟩ from by decide]
  · intro cm
    unfold detect_period
    rw [show scanFor monthYearAt ("From 01/12/24 to 31/12/24" : String).data =
        none from by decide]
    rw [show scanFor rangeAt ("From 01/12/24 to 31/12/24" : String).data =
        some ⟨none, some 2024, some "2024-12-01", some "2024-12-31", none⟩ from by decide]
  · intro y hy
    unfold expandYear
    rw [if_pos (by omega)]

/-- C5 (witness): the period detection and year expansion at concrete
inputs. -/
theorem C5_period_detection_witness :
    detect_period "January" "Statement Period: 01/12/2024 - 31/12/2024" =
        some ⟨none, some 2024, some "2024-12-01", some "2024-12-31", none⟩ ∧
      expandYear 24 = 2000 + 24 :=
  ⟨C5_period_detection.1 "January", C5_period_detection.2.2 24 (by omega)⟩

/-- C6: for every line the free-text parser turns into a transaction, with n
positive numeric-token values extracted: if n >= 2 the amount is the
second-to-last value, and if n = 1 it is that single value. -/
theorem C6_second_to_last_amount :
    ∀ (line : String) (tx : FinalTx), processLine line = some tx →
      (2 ≤ (lineVals (stripL line.data)).length →
        tx.amount =
          (lineVals (stripL line.data)).getD
            ((lineVals (stripL line.data)).length - 2) 0) ∧
      ((lineVals (stripL line.data)).length = 1 →
        tx.amount = (lineVals (stripL line.data)).getD 0 0) := by
  intro line tx h
  have hs := (processLine_shape line tx h).2
  constructor
  · intro h2
    rw [hs, if_neg (by simp only [beq_iff_eq]; omega), if_pos h2]
  · intro h1
    rw [hs, if_pos (by simp [h1])]

/-- C6 (witness): the single-token rule at a concrete line. -/
theorem C6_second_to_last_amount_witness :
    (⟨"Sent money to Grocery Mart", 500, none, .expense, "Other"⟩ : FinalTx).amount =
      (lineVals (stripL ("Sent money to Grocery Mart 500" : String).data)).getD 0 0 :=
  (C6_second_to_last_amount "Sent money to Grocery Mart 500" _ (by decide)).2 (by decide)

/-- C7 (counterexample): a successful AI call whose response contains no JSON
object does not fall back to the regex strategy — it returns an empty result,
while the regex strategy on the same text extracts a transaction.  This
refutes "its call fails for any reason (... malformed response) →
parse_transactions_with_ai returns the result of the regex fallback". -/
theorem C7_counterexample :
    parse_transactions_with_ai ⟨true, true, some "The AI found no transactions table."⟩
        (fun _ => none) "Sent money to Grocery Mart 500" ≠
      parse_transactions_regex "Sent money to Grocery Mart 500" := by
  decide

/-- C7 (amended): the dispatch returns the regex fallback whenever the AI
collaborator is unavailable (no key / no library / the call raised) and
whenever `json.loads` raises on the extracted JSON block; but a successful
response with no JSON block yields the empty result, not the regex fallback.
The embedding is a total function, so no exception reaches the caller. -/
theorem C7_amended :
    (∀ (env : AiEnv) (loadJson : String → Option StrategyResult) (text : String),
        env.hasApiKey = false ∨ env.hasGroqLib = false ∨ env.callResult = none →
        parse_transactions_with_ai env loadJson text = parse_transactions_regex text) ∧
    (∀ (env : AiEnv) (loadJson : String → Option StrategyResult)
        (text content : String) (j : List Char),
        env.callResult = some content → braceSpan content.data = some j →
        loadJson ⟨j⟩ = none →
        parse_transactions_with_ai env loadJson text = parse_transactions_regex text) ∧
    (∀ (env : AiEnv) (loadJson : String → Option StrategyResult)
        (text content : String),
        env.hasApiKey = true → env.hasGroqLib = true → env.callResult = some content →
        braceSpan content.data = none →
        parse_transactions_with_ai env loadJson text = ⟨[], none⟩) := by
  refine ⟨?_, ?_, ?_⟩
  · rintro ⟨k, g, c⟩ loadJson text (h | h | h) <;>
      simp_all [parse_transactions_with_ai]
  · rintro ⟨k, g, c⟩ loadJson text content j hc hb hl
    cases k <;> cases g <;> simp_all [parse_transactions_with_ai]
  · rintro ⟨k, g, c⟩ loadJson text content hk hg hc hb
    simp_all [parse_transactions_with_ai]

/-- C7 (witness): the fallback equality at a concrete unavailable
environment. -/
theorem C7_amended_witness :
    parse_transactions_with_ai ⟨false, true, none⟩ (fun _ => none) "ab 150.00 cd" =
      parse_transactions_regex "ab 150.00 cd" :=
  C7_amended.1 ⟨false, true, none⟩ (fun _ => none) "ab 150.00 cd" (Or.inl rfl)

/-- C8 (counterexample): two runs of the pdf-service extractor on identical
input differ whenever the uuid oracle differs — the emitted records carry a
fresh `id`, so the output is not byte-identical across runs. -/
theorem C8_counterexample :
    extract_transactions_from_text (fun _ => "run-one-uuid")
        "01/02/2025 Grocery Mart 500.00 DR" ≠
      extract_transactions_from_text (fun _ => "run-two-uuid")
        "01/02/2025 Grocery Mart 500.00 DR" := by
  decide

/-- The accumulation loop of the pdf-service extractor is deterministic up to
the fresh `id` field. -/
theorem pdfGo_eraseId (g1 g2 : ℕ → String) :
    ∀ (lns : List (List Char)) (acc1 acc2 : List PdfTx),
      acc1.map eraseId = acc2.map eraseId → acc1.length = acc2.length →
      (pdfGo g1 lns acc1).map eraseId = (pdfGo g2 lns acc2).map eraseId := by
  intro lns
  induction lns with
  | nil =>
    intro acc1 acc2 h _
    simpa [pdfGo] using h
  | cons ln rest ih =>
    intro acc1 acc2 h hlen
    unfold pdfGo
    cases htx : pdfLineTx ln with
    | none => exact ih acc1 acc2 h hlen
    | some q =>
      obtain ⟨dt, desc, v, ty⟩ := q
      refine ih _ _ ?_ ?_
      · simp [eraseId, h]
      · simp [hlen]

/-- C8 (amended): every field of the pdf-service extractor's output except the
freshly generated uuid `id` is a deterministic function of the input text
alone: erasing the `id` field makes two runs with different uuid streams
byte-identical.  (The ai-server pipeline functions take no oracle at all in
this embedding, so their determinism is structural.) -/
theorem C8_amended :
    ∀ (g1 g2 : ℕ → String) (text : String),
      (extract_transactions_from_text g1 text).map eraseId =
        (extract_transactions_from_text g2 text).map eraseId := by
  intro g1 g2 text
  unfold extract_transactions_from_text
  rw [List.map_take, List.map_take,
      pdfGo_eraseId g1 g2 (splitOnChar '\n' text.data) [] [] rfl rfl]

/-- C9: in the table pipeline, every emitted transaction whose description
contains one of the income keywords (credit, received, deposit, incoming,
salary, refund — case-insensitively) has type income, regardless of which
column supplied the amount; and there is no symmetric expense override: a
credit-column transaction whose description contains the send keyword
"payment" is still emitted as income. -/
theorem C9_income_override :
    (∀ (tables : List (List String)) (tx : FinalTx),
        tx ∈ parse_table_transactions tables →
        anyKwIn tableRecvKws (lowerL tx.description.data) = true →
        tx.txType = TxType.income) ∧
    parse_table_transactions
        [["Date", "Desc", "Credit", "Debit"],
         ["01-02-2025", "Payment to vendor", "700", ""]] =
      [⟨"Payment to vendor", 700, some "01-02-2025", .income, "Other"⟩] := by
  constructor
  · intro tables tx h hkw
    rcases parse_table_shape tables tx h with ⟨t, v, _, _, _, rfl⟩
    have hkw' : anyKwIn tableRecvKws (lowerL ((cleanDesc t.parts).take 100)) = true := hkw
    simp only [lowerL] at hkw'
    rw [List.map_take] at hkw'
    have hfull : anyKwIn tableRecvKws (lowerL (cleanDesc t.parts)) = true :=
      anyKwIn_of_take _ _ _ hkw'
    show (if anyKwIn tableRecvKws (lowerL (cleanDesc t.parts)) = true then TxType.income
          else t.txType) = TxType.income
    rw [if_pos hfull]
  · decide

/-- C9 (witness): the income override at a concrete table. -/
theorem C9_income_override_witness :
    (⟨"Salary received from employer", 700, some "01-02-2025", .income,
        "Transfer"⟩ : FinalTx).txType = TxType.income :=
  C9_income_override.1 [["01-02-2025", "Salary received from employer", "700"]] _
    (by decide) (by decide)

/-- C10 (counterexample): a dateless row preceding the first dated row CAN
change the output — when it is the header row that column inference reads.
Removing the header row `["Date","Desc","Credit","Debit"]` flips the emitted
type from income to expense, refuting the claim that every such row
contributes nothing. -/
theorem C10_counterexample :
    parse_table_transactions
        [["Date", "Desc", "Credit", "Debit"],
         ["01-02-2025", "Grocery Mart Store", "700", ""]] ≠
      parse_table_transactions [["01-02-2025", "Grocery Mart Store", "700", ""]] ∧
    find_date_in_row (["Date", "Desc", "Credit", "Debit"].map pyStrip) = none :=
  ⟨by decide, by decide⟩

/-- C10 (amended): every dateless row that precedes the first dated row and
does not carry the header signature (the substrings date/description/debit
that column inference scans for) contributes nothing: the emitted transaction
list is identical to the one produced with that row removed. -/
theorem C10_amended :
    ∀ (pre post : List (List String)) (r : List String),
      (∀ q ∈ pre, find_date_in_row (q.map pyStrip) = none) →
      find_date_in_row (r.map pyStrip) = none →
      isHeaderRow r = false →
      parse_table_transactions (pre ++ r :: post) =
        parse_table_transactions (pre ++ post) := by
  intro pre post r hpre hr hsig
  unfold parse_table_transactions
  rw [headerScan_skip pre post r hsig]
  have hpass : tablePass (headerScan (pre ++ post)) (pre ++ r :: post) =
      tablePass (headerScan (pre ++ post)) (pre ++ post) := by
    unfold tablePass
    rw [List.foldl_append, List.foldl_append, foldl_dateless _ pre hpre,
        List.foldl_cons, stepRow_dateless_none _ [] r hr]
  rw [hpass]

/-- C10 (witness): the amended statement at a concrete table with a dateless,
non-header note row before the first dated row. -/
theorem C10_amended_witness :
    parse_table_transactions
        [["", "note to self", ""], ["01-02-2025", "Grocery Mart Store", "700", ""]] =
      parse_table_transactions [["01-02-2025", "Grocery Mart Store", "700", ""]] :=
  C10_amended [] [["01-02-2025", "Grocery Mart Store", "700", ""]] ["", "note to self", ""]
    (by intro q hq; exact absurd hq (List.not_mem_nil q)) (by decide) (by decide)

end BankParse
